import Mathlib

/-!
Shallow embedding of the block-finalization and header-verification core
(`internal/chain/engine.go`) of a sharded BFT proof-of-stake blockchain.

Pure Go functions become Lean functions; the mutable `state.DB` becomes
explicit state passing over an association-list state; fallible Go code
returns `Except String`.  External collaborators that live outside the
repository (BLS primitives, RLP codecs, the slash package, the reward
accumulator, the committee-selection function, the EPoS recomputation)
are passed in as function parameters, mirroring the injected interfaces
described in the spec.  Machine integers (uint32 shard ids, uint64
heights, big.Int epochs) are modelled as `Nat`: the code only compares
and copies them, so overflow is irrelevant.
-/

set_option autoImplicit false

deriving instance DecidableEq for Except

namespace Harmony

/-- Fork-flag predicates exposed by `chain.Config()`. -/
structure ChainConfig where
  isStaking : Nat → Bool
  isPreStaking : Nat → Bool
  isQuickUnlock : Nat → Bool
  isNoEarlyUnlock : Nat → Bool
  isRedelegation : Nat → Bool
  isS3 : Nat → Bool

/-- A pending undelegation entry (`staking/types`), tagged with an epoch. -/
structure Undelegation where
  amount : Int
  epoch : Nat
  deriving DecidableEq

/-- A delegation: delegator address plus its pending undelegations. -/
structure Delegation where
  delegatorAddress : Nat
  undelegations : List Undelegation
  deriving DecidableEq

/-- Mutable per-validator record held in the state
(`LastEpochInCommittee` is a nullable big.Int in Go, hence `Option`). -/
structure ValidatorWrapper where
  lastEpochInCommittee : Option Nat
  delegations : List Delegation
  deriving DecidableEq

/-- A committee slot: address, BLS key, and the effective stake
(nil before the staking era, hence `Option`). -/
structure Slot where
  addr : Nat
  blsPublicKey : Nat
  effectiveStake : Option Int
  deriving DecidableEq

/-- A sub-committee of one shard. -/
structure Committee where
  shardID : Nat
  slots : List Slot
  deriving DecidableEq

/-- A per-epoch shard state: epoch (nullable big.Int in Go) and the
list of sub-committees. -/
structure ShardState where
  epoch : Option Nat
  shards : List Committee
  deriving DecidableEq

/-- Source `shard.State.FindCommitteeByID`: locate the sub-committee with the
given shard id. -/
def findCommitteeByID (ss : ShardState) (sid : Nat) : Option Committee :=
  ss.shards.find? (fun c => decide (c.shardID = sid))

/-- Modelled from the spec: `StakedValidators().Addrs` of `shard.State`
lives outside `src/`; per the data model ("each sub-committee is an
ordered sequence of validator slots (address + BLS public key +
effective stake)") and §4.5(b) ("for every staked validator it lists"),
the staked validators are the slots carrying an effective stake. -/
def stakedValidatorAddrs (ss : ShardState) : List Nat :=
  ((ss.shards.map (fun c => c.slots.filter (fun s => s.effectiveStake.isSome))).flatten).map Slot.addr

/-- Block header (opaque input of the engine).  `shardState` is the raw
encoded blob carried by the header; `shardStateDecoded` models the
result of `header.GetShardState()` (RLP decoding is external). -/
structure Header where
  hash : Nat
  parentHash : Nat
  number : Nat
  epoch : Nat
  shardID : Nat
  viewID : Nat
  root : Nat
  shardState : List Nat
  shardStateDecoded : Option ShardState
  lastCommitSignature : Nat
  lastCommitBitmap : List Nat
  isLastBlockInEpoch : Bool
  deriving DecidableEq

/-- The read-only `engine.ChainReader` capability set consumed by the core. -/
structure ChainReader where
  shardID : Nat
  config : ChainConfig
  currentHeaderNumber : Nat
  currentBlockEpoch : Nat
  getHeader : Nat → Nat → Option Header
  readShardStateFn : Nat → Except String ShardState
  readValidatorList : Except String (List Nat)

/-- Source `shard.BeaconChainShardID`: the distinguished beacon shard id. -/
def BeaconChainShardID : Nat := 0

/-- Double-sign evidence moment (`slash` package): epoch and shard id. -/
structure Moment where
  epoch : Nat
  shardID : Nat
  deriving DecidableEq

/-- Double-sign evidence: height, view id and the moment. -/
structure Evidence where
  height : Nat
  viewID : Nat
  moment : Moment
  deriving DecidableEq

/-- One slash record (`slash.Record`): the evidence plus reporter and
offender identities. -/
structure Record where
  evidence : Evidence
  reporter : Nat
  offender : Nat
  deriving DecidableEq

/-- The grouping key built inside `applySlashes` (its local `keyStruct`). -/
structure keyStruct where
  height : Nat
  viewID : Nat
  shardID : Nat
  epoch : Nat
  deriving DecidableEq

/-- The key extracted from one record inside the grouping loop of
`applySlashes`. -/
def slashKeyOf (r : Record) : keyStruct :=
  ⟨r.evidence.height, r.evidence.viewID, r.evidence.moment.shardID, r.evidence.moment.epoch⟩

/-- The comparator closure passed to `sort.SliceStable` in `applySlashes`,
verbatim: note that it falls through to the `height` (and then `viewID`)
comparison without first requiring equality of the higher-priority field. -/
def slashKeyLess (a b : keyStruct) : Bool :=
  if a.shardID < b.shardID then true
  else if a.height < b.height then true
  else if a.viewID < b.viewID then true
  else false

/-- One step of Go's swap-based insertion sort: bubble `x` leftwards
through the already-sorted prefix (given here reversed) while
`less x y` holds for the element `y` immediately to its left. -/
def insertGoRev {α : Type} (less : α → α → Bool) (x : α) : List α → List α
  | [] => [x]
  | y :: ys => if less x y then y :: insertGoRev less x ys else x :: y :: ys

/-- Insert `x` at the right end of the prefix `pre` and bubble it left,
exactly as `insertionSort` of Go's `sort` package does with `Swap`. -/
def insertGo {α : Type} (less : α → α → Bool) (pre : List α) (x : α) : List α :=
  (insertGoRev less x pre.reverse).reverse

/-- Go's `sort.SliceStable` splits the slice into blocks of 20 elements,
insertion-sorts each block, and merges.  For slices of at most 20
elements (every theorem below uses at most 3 keys) it therefore runs
exactly this insertion sort with the supplied comparator. -/
def sliceStableGo {α : Type} (less : α → α → Bool) (l : List α) : List α :=
  l.foldl (insertGo less) []

/-- The key list produced by the grouping loop of `applySlashes`.
In Go the groups live in a map and `for key := range groupedRecords`
yields the keys in an unspecified (runtime-randomized) order; it is
modelled here as first-insertion order, which is one of the legal
iteration orders. -/
def groupedKeysInOrder (doubleSigners : List Record) : List keyStruct :=
  doubleSigners.foldl (fun acc r => if slashKeyOf r ∈ acc then acc else acc ++ [slashKeyOf r]) []

/-- The sorted key order in which `applySlashes` applies the groups. -/
def sortedSlashKeys (doubleSigners : List Record) : List keyStruct :=
  sliceStableGo slashKeyLess (groupedKeysInOrder doubleSigners)

/-- The records grouped under one key (`groupedRecords[key]`), in input
order, as the Go append loop builds them. -/
def groupOf (doubleSigners : List Record) (k : keyStruct) : List Record :=
  doubleSigners.filter (fun r => decide (slashKeyOf r = k))

/-- Source `verifiedSigCache`: capacity of the verified-signature LRU. -/
def verifiedSigCacheSize : Nat := 20

/-- Source `bitmapKeyBytes`: fixed cache-key width supporting up to 512 validators. -/
def bitmapKeyBytes : Nat := 64

/-- The key for caching header verification results. -/
structure verifiedSigKey where
  blockHash : Nat
  signature : Nat
  bitmap : List Nat
  deriving DecidableEq

/-- The effect of `copy(keyBM[:], bitmap)` into a zeroed 64-byte array:
the bitmap truncated to 64 bytes and zero-padded up to 64 bytes. -/
def padBitmapKey (bitmap : List Nat) : List Nat :=
  bitmap.take bitmapKeyBytes ++ List.replicate (bitmapKeyBytes - bitmap.length) 0

/-- Source `newVerifiedSigKey`: build the cache key from the block hash, the
96-byte serialized signature (opaque) and the fixed-width bitmap. -/
def newVerifiedSigKey (blockHash sig : Nat) (bitmap : List Nat) : verifiedSigKey :=
  ⟨blockHash, sig, padBitmapKey bitmap⟩

/-- Source `verifyHeaderSignatureCached`.  The underlying `verifyHeaderSignature`
resolves the epoch context and calls the external BLS/quorum primitives,
so the fresh verification is passed in as the function `verify` of the
header hash, signature and bitmap; the LRU cache is the list of keys
(most recent first, capped at 20).  Returns the verdict and the updated
cache: a hit short-circuits to success, a fresh failure is returned
without touching the cache, a fresh success inserts the key. -/
def verifyHeaderSignatureCached
    (verify : Nat → Nat → List Nat → Except String Unit)
    (cache : List verifiedSigKey) (blockHash sig : Nat) (bitmap : List Nat) :
    Except String Unit × List verifiedSigKey :=
  let key := newVerifiedSigKey blockHash sig bitmap
  if key ∈ cache then (.ok (), cache)
  else
    match verify blockHash sig bitmap with
    | .error e => (.error e, cache)
    | .ok _ => (.ok (), (key :: cache).take verifiedSigCacheSize)

/-- Source `VerifyHeaderSignature`: cross-shard header verification entry point;
unconditionally succeeds while the chain tip number is at most 1. -/
def VerifyHeaderSignature
    (verify : Nat → Nat → List Nat → Except String Unit)
    (cache : List verifiedSigKey) (chain : ChainReader) (header : Header)
    (commitSig : Nat) (commitBitmap : List Nat) : Except String Unit :=
  if chain.currentHeaderNumber ≤ 1 then .ok ()
  else (verifyHeaderSignatureCached verify cache header.hash commitSig commitBitmap).fst

/-- Source `VerifySeal`: succeeds while the tip number is at most 1; otherwise
looks up the parent header and verifies the header's last-commit
signature and bitmap against it. -/
def VerifySeal
    (verify : Nat → Nat → List Nat → Except String Unit)
    (cache : List verifiedSigKey) (chain : ChainReader) (header : Option Header) :
    Except String Unit :=
  if chain.currentHeaderNumber ≤ 1 then .ok ()
  else
    match header with
    | none => .error "[VerifySeal] nil block header"
    | some h =>
      match chain.getHeader h.parentHash (h.number - 1) with
      | none => .error "[VerifySeal] no parent header found"
      | some parentHeader =>
        match (verifyHeaderSignatureCached verify cache parentHeader.hash
            h.lastCommitSignature h.lastCommitBitmap).fst with
        | .error e => .error ("verify signature for parent: " ++ e)
        | .ok _ => .ok ()

/-- Source `needRecalculateStateShard`: only recalculate for a non-staking epoch
when the target shard differs from the engine chain's own shard. -/
def needRecalculateStateShard (chain : ChainReader) (epoch targetShardID : Nat) : Bool :=
  if chain.config.isStaking epoch then false
  else decide (targetShardID ≠ chain.shardID)

/-- Source `readShardState`: recompute the shard state via the injected
committee-selection function (`committee.WithStakingEnabled.Compute`)
for cross-shard lookups in pre-staking epochs, otherwise read the
stored shard state from the chain. -/
def readShardState
    (computeFn : Nat → ChainReader → Except String ShardState)
    (chain : ChainReader) (epoch targetShardID : Nat) : Except String ShardState :=
  if needRecalculateStateShard chain epoch targetShardID then
    match computeFn epoch chain with
    | .error e => .error ("compute shard state for epoch: " ++ e)
    | .ok shardStateVal => .ok shardStateVal
  else
    match chain.readShardStateFn epoch with
    | .error e => .error ("read shard state for epoch: " ++ e)
    | .ok shardStateVal => .ok shardStateVal

/-- Modelled from the spec: the lock-period constants of the staking
package are outside `src/`; the spec distinguishes a default lock
period and a shorter `V2` (QuickUnlock) one, so they are modelled as
distinct concrete epoch counts. -/
def LockPeriodInEpoch : Nat := 7

/-- Modelled from the spec: the `V2` (QuickUnlock) lock period, distinct
from the default one. -/
def LockPeriodInEpochV2 : Nat := 1

/-- Source `GetLockPeriodInEpoch`: the delegation lock period for the given
chain at the given epoch, verbatim from the source including the
`IsRedelegation` branch that assigns the default period again. -/
def GetLockPeriodInEpoch (chain : ChainReader) (epoch : Nat) : Nat :=
  if chain.config.isRedelegation epoch then LockPeriodInEpoch
  else if chain.config.isQuickUnlock epoch then LockPeriodInEpochV2
  else LockPeriodInEpoch

/-- The staking flag computed inside `VerifyShardState`:
`shardState.Epoch != nil && bc.Config().IsStaking(shardState.Epoch)`. -/
def stakingFlagOf (bc : ChainReader) (ss : ShardState) : Bool :=
  match ss.epoch with
  | some ep => bc.config.isStaking ep
  | none => false

/-- Source `VerifyShardState`: check the header's encoded shard state at an
epoch transition.  `superCommFn` injects
`bc.SuperCommitteeForNextEpoch(beacon, header, true)` and
`encodeWrapper` injects the canonical codec `shard.EncodeWrapper`. -/
def VerifyShardState
    (superCommFn : ChainReader → ChainReader → Header → Except String ShardState)
    (encodeWrapper : ShardState → Bool → Except String (List Nat))
    (bc beacon : ChainReader) (header : Header) : Except String Unit :=
  if bc.shardID ≠ header.shardID then
    .error "[VerifyShardState] shardID not match"
  else if header.shardState.length = 0 then .ok ()
  else
    match superCommFn bc beacon header with
    | .error e => .error e
    | .ok shardStateVal =>
      match encodeWrapper shardStateVal (stakingFlagOf bc shardStateVal) with
      | .error e => .error ("[VerifyShardState] ShardState Encoding had error: " ++ e)
      | .ok shardStateBytes =>
        if shardStateBytes = header.shardState then .ok ()
        else .error "shard state header did not match as expected"

/-- The mutable `state.DB`, modelled as association lists: validator
wrappers keyed by address, and account balances keyed by address. -/
structure StateDB where
  wrappers : List (Nat × ValidatorWrapper)
  balances : List (Nat × Int)
  deriving DecidableEq

/-- Source `state.ValidatorWrapper(addr)`: first wrapper stored under the address. -/
def lookupWrapper : List (Nat × ValidatorWrapper) → Nat → Option ValidatorWrapper
  | [], _ => none
  | p :: rest, a => if p.fst = a then some p.snd else lookupWrapper rest a

/-- Store a wrapper back under its address (Go mutates the wrapper that
the state handed out in place). -/
def updateWrapper : List (Nat × ValidatorWrapper) → Nat → ValidatorWrapper → List (Nat × ValidatorWrapper)
  | [], _, _ => []
  | p :: rest, a, w =>
    if p.fst = a then (p.fst, w) :: updateWrapper rest a w
    else p :: updateWrapper rest a w

/-- Source `state.AddBalance` on the balance list, creating the account when absent. -/
def addBalanceList : List (Nat × Int) → Nat → Int → List (Nat × Int)
  | [], a, amt => [(a, amt)]
  | p :: rest, a, amt =>
    if p.fst = a then (p.fst, p.snd + amt) :: rest
    else p :: addBalanceList rest a amt

/-- Source `state.AddBalance` lifted to the whole state. -/
def addBalance (st : StateDB) (a : Nat) (amt : Int) : StateDB :=
  { st with balances := addBalanceList st.balances a amt }

/-- Write a validator wrapper back into the state. -/
def setWrapper (st : StateDB) (a : Nat) (w : ValidatorWrapper) : StateDB :=
  { st with wrappers := updateWrapper st.wrappers a w }

/-- The external collaborators consumed by `Finalize`, injected as pure
functions: `RemoveUnlockedUndelegations` of `staking/types` (returns the
remaining undelegations and the total withdrawn),
`availability.ComputeAndMutateEPOSStatus`,
`AccumulateRewardsAndCountSigs` (the sigsReady wait happens inside it;
the reward reader it returns is opaque), `lookupVotingPower`,
`slash.Rate`, `slash.Apply` (returns the mutated state and an opaque
`Application` summary) and `state.IntermediateRoot`. -/
structure Externals where
  removeUnlockedUndelegations : Nat → Option Nat → Nat → Bool → List Undelegation → List Undelegation × Int
  computeAndMutateEPOSStatus : ChainReader → StateDB → Nat → Except String StateDB
  accumulateRewardsAndCountSigs : ChainReader → StateDB → Header → Except String (StateDB × Nat)
  lookupVotingPower : Nat → Committee → Except String Nat
  slashRate : Nat → List Record → Nat
  slashApply : ChainReader → StateDB → List Record → Nat → Except String (StateDB × Nat)
  intermediateRoot : StateDB → Bool → Nat

/-- The inner delegation loop of `payoutUndelegations` for one wrapper:
remove the unlocked undelegations of each delegation and credit the
delegator when the total withdrawn is non-zero.  Returns the updated
delegation list together with the state after the balance credits. -/
def payoutDelegations (ext : Externals) (epoch : Nat) (lastEpoch : Option Nat)
    (lockPeriod : Nat) (noEarlyUnlock : Bool) :
    List Delegation → StateDB → List Delegation × StateDB
  | [], st => ([], st)
  | d :: rest, st =>
    let pr := ext.removeUnlockedUndelegations epoch lastEpoch lockPeriod noEarlyUnlock d.undelegations
    let st2 := if pr.snd ≠ 0 then addBalance st d.delegatorAddress pr.snd else st
    let out := payoutDelegations ext epoch lastEpoch lockPeriod noEarlyUnlock rest st2
    ({ d with undelegations := pr.fst } :: out.fst, out.snd)

/-- The outer validator loop of `payoutUndelegations`: fetch each
wrapper (failure when missing), pay out its delegations using the
wrapper's current `LastEpochInCommittee`, and store the wrapper back. -/
def payoutValidators (ext : Externals) (epoch lockPeriod : Nat) (noEarlyUnlock : Bool) :
    List Nat → StateDB → Except String StateDB
  | [], st => .ok st
  | v :: rest, st =>
    match lookupWrapper st.wrappers v with
    | none => .error "[Finalize] failed to get validator from state to finalize"
    | some w =>
      let out := payoutDelegations ext epoch w.lastEpochInCommittee lockPeriod noEarlyUnlock w.delegations st
      payoutValidators ext epoch lockPeriod noEarlyUnlock rest
        (setWrapper out.snd v { w with delegations := out.fst })

/-- Source `payoutUndelegations`: withdraw unlocked tokens to the delegators'
accounts, over the whole validator list of the chain. -/
def payoutUndelegations (ext : Externals) (chain : ChainReader) (header : Header)
    (st : StateDB) : Except String StateDB :=
  match chain.readValidatorList with
  | .error _ => .error "[Finalize] failed to read all validators"
  | .ok validators =>
    payoutValidators ext header.epoch (GetLockPeriodInEpoch chain header.epoch)
      (chain.config.isNoEarlyUnlock header.epoch) validators st

/-- The loop inside `setLastEpochInCommittee`: for every staked
validator of the new shard state, set its `LastEpochInCommittee` to the
new shard state's epoch (failure when the wrapper is missing). -/
def setLastAux (epochVal : Option Nat) : List Nat → StateDB → Except String StateDB
  | [], st => .ok st
  | a :: rest, st =>
    match lookupWrapper st.wrappers a with
    | none => .error "[Finalize] failed to get validator from state to finalize"
    | some w =>
      setLastAux epochVal rest (setWrapper st a { w with lastEpochInCommittee := epochVal })

/-- Source `setLastEpochInCommittee`: decode the new shard state out of the
header and stamp its epoch on every staked validator it lists. -/
def setLastEpochInCommittee (header : Header) (st : StateDB) : Except String StateDB :=
  match header.shardStateDecoded with
  | none => .error "[Finalize] failed to read shard state"
  | some newShardState => setLastAux newShardState.epoch (stakedValidatorAddrs newShardState) st

/-- The EPoS recomputation loop of `Finalize`: recompute eligibility for
every staked validator of the current (outgoing) shard state. -/
def eposLoop (ext : Externals) (chain : ChainReader) : List Nat → StateDB → Except String StateDB
  | [], st => .ok st
  | a :: rest, st =>
    match ext.computeAndMutateEPOSStatus chain st a with
    | .error e => .error e
    | .ok st2 => eposLoop ext chain rest st2

/-- Source `IsCommitteeSelectionBlock`: beacon chain, last block in epoch, and
pre-staking era or later. -/
def IsCommitteeSelectionBlock (chain : ChainReader) (header : Header) : Bool :=
  decide (header.shardID = BeaconChainShardID) && header.isLastBlockInEpoch
    && chain.config.isPreStaking header.epoch

/-- Phase 1 of `Finalize` (committee-selection block handling): payout
of undelegations, then the `LastEpochInCommittee` update, then the EPoS
status recomputation over the current shard state — in that order. -/
def finalizeCommitteePhase (ext : Externals) (chain : ChainReader) (header : Header)
    (st : StateDB) : Except String StateDB :=
  if IsCommitteeSelectionBlock chain header then
    match payoutUndelegations ext chain header st with
    | .error e => .error e
    | .ok st1 =>
      match setLastEpochInCommittee header st1 with
      | .error e => .error e
      | .ok st2 =>
        match chain.readShardStateFn chain.currentBlockEpoch with
        | .error e => .error e
        | .ok curShardState => eposLoop ext chain (stakedValidatorAddrs curShardState) st2
  else .ok st

/-- The per-group loop of `applySlashes`, walking the sorted keys: read
the shard state at the evidence epoch, find the sub-committee, look up
the cached voting power, compute the rate and apply the slash. -/
def applySlashesLoop (ext : Externals) (chain : ChainReader) (doubleSigners : List Record) :
    List keyStruct → StateDB → Except String StateDB
  | [], st => .ok st
  | k :: rest, st =>
    match chain.readShardStateFn k.epoch with
    | .error _ => .error "could not read shard state"
    | .ok superCommittee =>
      match findCommitteeByID superCommittee k.shardID with
      | none => .error "could not find shard committee"
      | some subComm =>
        match ext.lookupVotingPower k.epoch subComm with
        | .error e => .error ("could not lookup cached voting power in slash application: " ++ e)
        | .ok votingPower =>
          let records := groupOf doubleSigners k
          let rate := ext.slashRate votingPower records
          match ext.slashApply chain st records rate with
          | .error _ => .error "[Finalize] could not apply slash"
          | .ok pr => applySlashesLoop ext chain doubleSigners rest pr.fst

/-- Source `applySlashes`: group the double-sign records, sort the keys with
the source comparator, and apply the groups in that order (the header
argument is unused, as in the source). -/
def applySlashes (ext : Externals) (chain : ChainReader) (_header : Header)
    (st : StateDB) (doubleSigners : List Record) : Except String StateDB :=
  applySlashesLoop ext chain doubleSigners (sortedSlashKeys doubleSigners) st

/-- The assembled block: the finalized header (transactions, receipts
and cross-shard receipts are opaque to every claim). -/
structure Block where
  header : Header
  deriving DecidableEq

/-- The tail of `Finalize`: stamp the view id, commit the state root
computed with the S3 flag, and assemble the block.  Returns the block,
the final state and the opaque reward reader. -/
def finalizeAssemble (ext : Externals) (chain : ChainReader) (header : Header)
    (st : StateDB) (payout viewID : Nat) : Block × StateDB × Nat :=
  let header2 := { header with viewID := viewID }
  let header3 := { header2 with root := ext.intermediateRoot st (chain.config.isS3 header.epoch) }
  (⟨header3⟩, st, payout)

/-- Source `Finalize`: committee-selection phase, reward accumulation, slash
application (only on the beacon chain in the staking era, with an error
when double signers are supplied outside that context), view-id
stamping, state-root commit and block assembly. -/
def Finalize (ext : Externals) (chain : ChainReader) (header : Header) (st : StateDB)
    (doubleSigners : List Record) (viewID : Nat) : Except String (Block × StateDB × Nat) :=
  match finalizeCommitteePhase ext chain header st with
  | .error e => .error e
  | .ok st1 =>
    match ext.accumulateRewardsAndCountSigs chain st1 header with
    | .error e => .error e
    | .ok pr =>
      if decide (header.shardID = BeaconChainShardID) && chain.config.isStaking header.epoch
          && decide (0 < doubleSigners.length) then
        match applySlashes ext chain header pr.fst doubleSigners with
        | .error e => .error e
        | .ok st3 => .ok (finalizeAssemble ext chain header st3 pr.snd viewID)
      else if 0 < doubleSigners.length then
        .error "slashes proposed in non-beacon chain or non-staking epoch"
      else .ok (finalizeAssemble ext chain header pr.fst pr.snd viewID)

/-! ## Concrete fixtures used by counterexamples and witnesses -/

/-- Evidence record of the spec's slashing scenario: shard 1, height 10, view 2. -/
def recSh1H10 : Record := ⟨⟨10, 2, ⟨5, 1⟩⟩, 11, 21⟩

/-- Evidence record of the spec's slashing scenario: shard 0, height 10, view 2. -/
def recSh0H10 : Record := ⟨⟨10, 2, ⟨5, 0⟩⟩, 12, 22⟩

/-- Evidence record of the spec's slashing scenario: shard 1, height 9, view 2. -/
def recSh1H9 : Record := ⟨⟨9, 2, ⟨5, 1⟩⟩, 13, 23⟩

/-- A shard state at epoch 5 holding one-slot committees for shards 0 and 1. -/
def ssEpoch5 : ShardState := ⟨some 5, [⟨0, [⟨1, 1, some 1⟩]⟩, ⟨1, [⟨2, 2, some 1⟩]⟩]⟩

/-- A chain config with every fork predicate true. -/
def cfgAllOn : ChainConfig :=
  ⟨fun _ => true, fun _ => true, fun _ => true, fun _ => true, fun _ => true, fun _ => true⟩

/-- A chain config with every fork predicate false. -/
def cfgAllOff : ChainConfig :=
  ⟨fun _ => false, fun _ => false, fun _ => false, fun _ => false, fun _ => false, fun _ => false⟩

/-- A beacon-shard chain reader in the staking era whose stored shard
state is `ssEpoch5` at every epoch. -/
def chainBeacon : ChainReader :=
  ⟨0, cfgAllOn, 2, 5, fun _ _ => none, fun _ => .ok ssEpoch5, .ok []⟩

/-- Externals whose slash application appends the (shard, height) of
each slashed record to the balance list, making the mutation order
observable while staying order-insensitive in every other component. -/
def extTrace : Externals :=
  ⟨fun _ _ _ _ u => (u, 0),
   fun _ st _ => .ok st,
   fun _ st _ => .ok (st, 0),
   fun _ _ => .ok 1,
   fun _ _ => 1,
   fun _ st records _ =>
     .ok ({ st with balances := st.balances ++ records.map (fun r => (r.evidence.moment.shardID, (r.evidence.height : Int))) }, 0),
   fun _ _ => 0⟩

/-- A header on shard 1 (not the beacon shard), not a committee-selection block. -/
def headerShard1 : Header := ⟨100, 99, 12, 5, 1, 3, 0, [], none, 7, [1], false⟩

/-- The empty state. -/
def stEmpty : StateDB := ⟨[], []⟩

/-! ## C1 and C2: determinism of slash application -/

/-- C1: the claim says `applySlashes` applies slash groups in the order
given by lexicographically sorting the grouping keys (shard ascending,
then height, then view), so that the evidence set
{(sh 1, h 10, v 2), (sh 0, h 10, v 2), (sh 1, h 9, v 2)} is applied as
shard 0 @ h10, shard 1 @ h9, shard 1 @ h10.  It fails on the code: the
comparator handed to `sort.SliceStable` falls through to the lower
priority fields without requiring equality of the higher ones, so with
the spec scenario's own feed order the sort yields shard 1 @ h9, then
shard 0 @ h10, then shard 1 @ h10 — not the claimed order. -/
theorem applySlashes_sort_order_diverges :
    sortedSlashKeys [recSh1H10, recSh0H10, recSh1H9]
      = [⟨9, 2, 1, 5⟩, ⟨10, 2, 0, 5⟩, ⟨10, 2, 1, 5⟩] ∧
    sortedSlashKeys [recSh1H10, recSh0H10, recSh1H9]
      ≠ [⟨10, 2, 0, 5⟩, ⟨9, 2, 1, 5⟩, ⟨10, 2, 1, 5⟩] := by
  decide

/-- C2: the claim says `applySlashes` is a pure function of the evidence
set — two permutations of the same records produce byte-identical state
mutations, in particular the same groups in the same order.  It fails on
the code: the invalid comparator makes the sorted key order depend on
the pre-sort key order (itself fed from randomized Go map iteration), so
the two permutations below are applied in different orders and an
order-sensitive slash application yields different states. -/
theorem applySlashes_not_permutation_invariant :
    List.Perm [recSh1H9, recSh1H10, recSh0H10] [recSh1H10, recSh0H10, recSh1H9] ∧
    sortedSlashKeys [recSh1H10, recSh0H10, recSh1H9]
      ≠ sortedSlashKeys [recSh1H9, recSh1H10, recSh0H10] ∧
    applySlashes extTrace chainBeacon headerShard1 stEmpty [recSh1H10, recSh0H10, recSh1H9]
      ≠ applySlashes extTrace chainBeacon headerShard1 stEmpty [recSh1H9, recSh1H10, recSh0H10] := by
  refine ⟨by decide, by decide, by decide⟩

/-! ## C3: the undelegation lock period -/

/-- A chain reader whose config has every fork flag on (in particular
both `IsRedelegation` and `IsQuickUnlock`). -/
def chainAllForks : ChainReader :=
  ⟨0, cfgAllOn, 2, 5, fun _ _ => none, fun _ => .ok ssEpoch5, .ok []⟩

/-- C3 counterexample: the claim says the lock period equals the V2
period whenever `IsQuickUnlock` holds.  At an epoch where
`IsRedelegation` also holds, the source takes the redelegation branch
(which assigns the default period again) and never reaches the
QuickUnlock branch. -/
theorem GetLockPeriodInEpoch_quickUnlock_shadowed :
    chainAllForks.config.isQuickUnlock 3 = true ∧
    GetLockPeriodInEpoch chainAllForks 3 ≠ LockPeriodInEpochV2 ∧
    GetLockPeriodInEpoch chainAllForks 3 = LockPeriodInEpoch := by
  decide

/-- C3 amended: the lock period is the V2 period exactly when
`IsQuickUnlock` holds and `IsRedelegation` does not; in every other
case it is the default period. -/
theorem GetLockPeriodInEpoch_characterization (chain : ChainReader) (epoch : Nat) :
    (GetLockPeriodInEpoch chain epoch = LockPeriodInEpochV2 ↔
      chain.config.isQuickUnlock epoch = true ∧ chain.config.isRedelegation epoch = false) ∧
    (chain.config.isQuickUnlock epoch = false ∨ chain.config.isRedelegation epoch = true →
      GetLockPeriodInEpoch chain epoch = LockPeriodInEpoch) := by
  unfold GetLockPeriodInEpoch LockPeriodInEpoch LockPeriodInEpochV2
  cases h1 : chain.config.isRedelegation epoch <;>
    cases h2 : chain.config.isQuickUnlock epoch <;> simp

/-- Witness for the amended C3 statement at a concrete chain and epoch. -/
theorem GetLockPeriodInEpoch_characterization_witness :
    GetLockPeriodInEpoch chainAllForks 3 = LockPeriodInEpoch :=
  (GetLockPeriodInEpoch_characterization chainAllForks 3).2 (Or.inr rfl)

/-! ## C4 and C5: the verified-signature memo -/

/-- A 64-byte bitmap of ones. -/
def bm64 : List Nat := List.replicate 64 1

/-- A 65-byte bitmap whose first 64 bytes agree with `bm64`. -/
def bm65 : List Nat := List.replicate 64 1 ++ [0]

/-- A fresh verification that accepts exactly the 64-byte bitmaps —
the realistic shape of `verifyHeaderSignature` for a 512-member
committee, where `DecodeSigBitmap` rejects bitmaps of any other
length. -/
def verifyLen64 : Nat → Nat → List Nat → Except String Unit :=
  fun _ _ b =>
    if b.length = bitmapKeyBytes then Except.ok ()
    else Except.error "deserialize signature and bitmap"

/-- C4 counterexample: the claim says the memoized verification returns
the same verdict as a fresh verification for every triple.  After a
successful verification with the 64-byte bitmap, a call with the
65-byte bitmap sharing its first 64 bytes hits the truncated cache key
and returns success, while a fresh verification of that triple fails. -/
theorem verifiedSigCache_verdict_differs_from_fresh :
    (verifyHeaderSignatureCached verifyLen64
        (verifyHeaderSignatureCached verifyLen64 [] 7 9 bm64).snd 7 9 bm65).fst = Except.ok () ∧
    verifyLen64 7 9 bm65 = Except.error "deserialize signature and bitmap" := by
  decide

/-- C4 amended: the memoized verification returns the same verdict as a
fresh one provided the fresh verdict depends on the bitmap only through
its 64-byte zero-padded truncation and every cached key stems from a
successfully verified triple (without the first proviso, the C5
collision makes the verdicts differ); moreover only successful verdicts
are inserted into the memo — a failed verification returns the failure
with the cache unchanged, so a later identical call re-runs
verification, while a fresh success inserts its key. -/
theorem verifiedSigCache_sound
    (verify : Nat → Nat → List Nat → Except String Unit)
    (cache : List verifiedSigKey) (h s : Nat) (b : List Nat)
    (hResp : ∀ h0 s0 b1 b2, padBitmapKey b1 = padBitmapKey b2 → verify h0 s0 b1 = verify h0 s0 b2)
    (hGood : ∀ k ∈ cache, ∃ h0 s0 b0, k = newVerifiedSigKey h0 s0 b0 ∧ verify h0 s0 b0 = Except.ok ()) :
    ((verifyHeaderSignatureCached verify cache h s b).fst = verify h s b) ∧
    (∀ e, verify h s b = Except.error e → newVerifiedSigKey h s b ∉ cache →
      verifyHeaderSignatureCached verify cache h s b = (Except.error e, cache)) ∧
    (verify h s b = Except.ok () → newVerifiedSigKey h s b ∉ cache →
      verifyHeaderSignatureCached verify cache h s b
        = (Except.ok (), (newVerifiedSigKey h s b :: cache).take verifiedSigCacheSize)) := by
  by_cases hmem : newVerifiedSigKey h s b ∈ cache
  · obtain ⟨h0, s0, b0, hkeq, hok⟩ := hGood _ hmem
    have hcomp : h = h0 ∧ s = s0 ∧ padBitmapKey b = padBitmapKey b0 := by
      simpa [newVerifiedSigKey, verifiedSigKey.mk.injEq] using hkeq
    obtain ⟨hh, hs, hb⟩ := hcomp
    subst hh
    subst hs
    have hv : verify h s b = Except.ok () := (hResp h s b b0 hb).trans hok
    refine ⟨?_, ?_, ?_⟩
    · simp [verifyHeaderSignatureCached, hmem, hv]
    · intro e he _
      rw [hv] at he
      exact absurd he (by simp)
    · intro _ hnot
      exact absurd hmem hnot
  · refine ⟨?_, ?_, ?_⟩
    · cases hv : verify h s b with
      | error e => simp [verifyHeaderSignatureCached, hmem, hv]
      | ok u =>
        cases u
        simp [verifyHeaderSignatureCached, hmem, hv]
    · intro e he _
      simp [verifyHeaderSignatureCached, hmem, he]
    · intro hok2 _
      simp [verifyHeaderSignatureCached, hmem, hok2]

/-- Witness for the amended C4 statement at a concrete triple. -/
theorem verifiedSigCache_sound_witness :
    (verifyHeaderSignatureCached (fun _ _ _ => Except.ok ()) [] 1 2 [3]).fst = Except.ok () :=
  (verifiedSigCache_sound (fun _ _ _ => Except.ok ()) [] 1 2 [3]
    (fun _ _ _ _ _ => rfl) (fun k hk => absurd hk (by simp))).1

/-- C5: two bitmaps agreeing on their first 64 bytes — here a bitmap of
length at least 64 and its 64-byte truncation — produce the same cache
key for the same block hash and signature, and after a successful
cached verification with the first bitmap, a call with the second one
returns success with the cache unchanged for every fresh-verification
function, i.e. without decoding or verifying that bitmap. -/
theorem verifiedSigKey_truncation_collision (h s : Nat) (b1 b2 : List Nat)
    (hlen : bitmapKeyBytes ≤ b1.length) (hpre : b2 = b1.take bitmapKeyBytes) :
    newVerifiedSigKey h s b1 = newVerifiedSigKey h s b2 ∧
    (∀ verify verify2 cache cache2,
      verifyHeaderSignatureCached verify cache h s b1 = (Except.ok (), cache2) →
      verifyHeaderSignatureCached verify2 cache2 h s b2 = (Except.ok (), cache2)) := by
  have hmin : min bitmapKeyBytes b1.length = bitmapKeyBytes := Nat.min_eq_left hlen
  have hpad : padBitmapKey b1 = padBitmapKey b2 := by
    subst hpre
    simp [padBitmapKey, List.take_take, List.length_take, hmin,
      Nat.sub_eq_zero_of_le hlen, Nat.min_self]
  have hkey : newVerifiedSigKey h s b1 = newVerifiedSigKey h s b2 := by
    simp [newVerifiedSigKey, hpad]
  refine ⟨hkey, ?_⟩
  intro verify verify2 cache cache2 hcall
  have hmem : newVerifiedSigKey h s b1 ∈ cache2 := by
    by_cases hmemc : newVerifiedSigKey h s b1 ∈ cache
    · have hc : cache = cache2 := by
        simpa [verifyHeaderSignatureCached, hmemc] using hcall
      rw [← hc]
      exact hmemc
    · cases hv : verify h s b1 with
      | error e => simp [verifyHeaderSignatureCached, hmemc, hv] at hcall
      | ok u =>
        cases u
        have hc : (newVerifiedSigKey h s b1 :: cache).take verifiedSigCacheSize = cache2 := by
          simpa [verifyHeaderSignatureCached, hmemc, hv] using hcall
        rw [← hc]
        have hstep : (newVerifiedSigKey h s b1 :: cache).take verifiedSigCacheSize
            = newVerifiedSigKey h s b1 :: cache.take 19 := rfl
        rw [hstep]
        exact List.mem_cons_self _ _
  have hmem2 : newVerifiedSigKey h s b2 ∈ cache2 := hkey ▸ hmem
  simp [verifyHeaderSignatureCached, hmem2]

/-- Witness for C5: after caching a success for the 65-byte bitmap, the
call with its 64-byte truncation succeeds even though its own fresh
verification would fail. -/
theorem verifiedSigKey_truncation_collision_witness :
    verifyHeaderSignatureCached (fun _ _ _ => Except.error "deserialize signature and bitmap")
      [newVerifiedSigKey 7 9 bm65] 7 9 bm64
      = (Except.ok (), [newVerifiedSigKey 7 9 bm65]) :=
  (verifiedSigKey_truncation_collision 7 9 bm65 bm64 (by decide) (by decide)).2
    (fun _ _ _ => Except.ok ()) (fun _ _ _ => Except.error "deserialize signature and bitmap")
    [] [newVerifiedSigKey 7 9 bm65] (by decide)

/-! ## C6: shard-state resolution for the epoch context -/

/-- C6: the engine recomputes the shard state via the injected
committee-selection function exactly when the staking predicate does
not hold at the epoch and the target shard differs from the engine
chain's own shard; in every other case it reads the stored shard state
from the chain. -/
theorem readShardState_recompute_characterization
    (computeFn : Nat → ChainReader → Except String ShardState)
    (chain : ChainReader) (epoch targetShardID : Nat) :
    (needRecalculateStateShard chain epoch targetShardID = true ↔
      chain.config.isStaking epoch = false ∧ targetShardID ≠ chain.shardID) ∧
    (∀ ss, chain.config.isStaking epoch = false → targetShardID ≠ chain.shardID →
      computeFn epoch chain = .ok ss →
      readShardState computeFn chain epoch targetShardID = .ok ss) ∧
    (∀ ss, chain.config.isStaking epoch = true ∨ targetShardID = chain.shardID →
      chain.readShardStateFn epoch = .ok ss →
      readShardState computeFn chain epoch targetShardID = .ok ss) := by
  refine ⟨?_, ?_, ?_⟩
  · unfold needRecalculateStateShard
    cases hst : chain.config.isStaking epoch <;> simp
  · intro ss hst hne hcomp
    have hneed : needRecalculateStateShard chain epoch targetShardID = true := by
      unfold needRecalculateStateShard
      simp [hst, hne]
    simp [readShardState, hneed, hcomp]
  · intro ss hor hread
    have hneed : needRecalculateStateShard chain epoch targetShardID = false := by
      unfold needRecalculateStateShard
      rcases hor with hst | heq
      · simp [hst]
      · cases hst : chain.config.isStaking epoch <;> simp [heq]
    simp [readShardState, hneed, hread]

/-- An engine-side chain reader on shard 1 in a pre-staking epoch (the
spec's cross-shard lookup scenario). -/
def chainShard1PreStaking : ChainReader :=
  ⟨1, cfgAllOff, 2, 5, fun _ _ => none, fun _ => .error "no stored state", .ok []⟩

/-- Witness for C6: the engine on shard 1 asked about shard 0 in a
pre-staking epoch uses the committee-selection recomputation. -/
theorem readShardState_recompute_characterization_witness :
    readShardState (fun _ _ => Except.ok ssEpoch5) chainShard1PreStaking 5 0
      = Except.ok ssEpoch5 :=
  (readShardState_recompute_characterization
      (fun _ _ => Except.ok ssEpoch5) chainShard1PreStaking 5 0).2.1
    ssEpoch5 rfl (by decide) rfl

/-! ## C9: the genesis shortcut of seal verification -/

/-- C9: whenever the chain tip's block number is at most 1, both
`VerifySeal` and `VerifyHeaderSignature` return success for every
header (even a nil one), every commit signature and bitmap, every
cache content and every underlying verification function — i.e. without
consulting any signature, bitmap or committee. -/
theorem verify_genesis_shortcut (chain : ChainReader)
    (hTip : chain.currentHeaderNumber ≤ 1) :
    (∀ verify cache header, VerifySeal verify cache chain header = Except.ok ()) ∧
    (∀ verify cache header sig bitmap,
      VerifyHeaderSignature verify cache chain header sig bitmap = Except.ok ()) := by
  constructor
  · intro verify cache header
    simp [VerifySeal, hTip]
  · intro verify cache header sig bitmap
    simp [VerifyHeaderSignature, hTip]

/-- A chain reader whose tip number is 1. -/
def chainTip1 : ChainReader :=
  ⟨0, cfgAllOff, 1, 0, fun _ _ => none, fun _ => .error "none", .ok []⟩

/-- Witness for C9: with tip number 1, a nil header passes seal
verification under an always-failing verification function. -/
theorem verify_genesis_shortcut_witness :
    VerifySeal (fun _ _ _ => Except.error "must not be consulted") [] chainTip1 none
      = Except.ok () :=
  (verify_genesis_shortcut chainTip1 (by decide)).1
    (fun _ _ _ => Except.error "must not be consulted") [] none

/-! ## C10: shard-state verification at epoch transitions -/

/-- C10: `VerifyShardState` fails when the local chain's shard id
differs from the header's; succeeds immediately on an empty blob;
otherwise, when the recomputation and the encoding succeed, it succeeds
exactly when the canonical encoding equals the header's blob, failing
with the mismatch error on inequality; and the staking-era flag passed
to the codec is set exactly when the computed shard state carries an
epoch that is in the staking era. -/
theorem VerifyShardState_characterization
    (superCommFn : ChainReader → ChainReader → Header → Except String ShardState)
    (encodeWrapper : ShardState → Bool → Except String (List Nat))
    (bc beacon : ChainReader) (header : Header) :
    (bc.shardID ≠ header.shardID →
      ∃ e, VerifyShardState superCommFn encodeWrapper bc beacon header = Except.error e) ∧
    (bc.shardID = header.shardID → header.shardState = [] →
      VerifyShardState superCommFn encodeWrapper bc beacon header = Except.ok ()) ∧
    (∀ ss shardStateBytes, bc.shardID = header.shardID → header.shardState ≠ [] →
      superCommFn bc beacon header = .ok ss →
      encodeWrapper ss (stakingFlagOf bc ss) = .ok shardStateBytes →
      ((VerifyShardState superCommFn encodeWrapper bc beacon header = Except.ok () ↔
          shardStateBytes = header.shardState) ∧
        (shardStateBytes ≠ header.shardState →
          VerifyShardState superCommFn encodeWrapper bc beacon header
            = Except.error "shard state header did not match as expected"))) ∧
    (∀ ss, stakingFlagOf bc ss = true ↔
      ∃ ep, ss.epoch = some ep ∧ bc.config.isStaking ep = true) := by
  refine ⟨?_, ?_, ?_, ?_⟩
  · intro hne
    exact ⟨"[VerifyShardState] shardID not match", by simp [VerifyShardState, hne]⟩
  · intro heq hempty
    simp [VerifyShardState, heq, hempty]
  · intro ss shardStateBytes heq hnonempty hsc henc
    have hlen : ¬header.shardState.length = 0 := by
      simpa [List.length_eq_zero] using hnonempty
    constructor
    · constructor
      · intro hok
        by_contra hne
        simp [VerifyShardState, heq, hlen, hsc, henc, hne] at hok
      · intro hbytes
        simp [VerifyShardState, heq, hlen, hsc, henc, hbytes]
    · intro hne
      simp [VerifyShardState, heq, hlen, hsc, henc, hne]
  · intro ss
    cases hep : ss.epoch with
    | none => simp [stakingFlagOf, hep]
    | some ep => simp [stakingFlagOf, hep]

/-- A local chain on shard 0 for the C10 witness. -/
def chainLocal0 : ChainReader :=
  ⟨0, cfgAllOn, 2, 5, fun _ _ => none, fun _ => .ok ssEpoch5, .ok []⟩

/-- A shard-0 header carrying a non-empty shard-state blob. -/
def headerBlob : Header := ⟨100, 99, 12, 5, 0, 3, 0, [1, 2], none, 7, [1], true⟩

/-- Witness for C10: a recomputed committee encoding to bytes different
from the header's blob makes verification fail with the mismatch error. -/
theorem VerifyShardState_characterization_witness :
    VerifyShardState (fun _ _ _ => Except.ok ssEpoch5) (fun _ _ => Except.ok [9])
      chainLocal0 chainBeacon headerBlob
      = Except.error "shard state header did not match as expected" :=
  ((VerifyShardState_characterization (fun _ _ _ => Except.ok ssEpoch5)
      (fun _ _ => Except.ok [9]) chainLocal0 chainBeacon headerBlob).2.2.1
    ssEpoch5 [9] rfl (by decide) rfl rfl).2 (by decide)

/-! ## C7: the slash-application gate of Finalize -/

/-- C7: given that the committee-selection phase and the reward
accumulation succeed, `Finalize` applies slashes exactly when the
header is on the beacon shard, the staking predicate holds at its
epoch, and the double-signer list is non-empty: outside that context a
non-empty list makes `Finalize` fail with the slashes-in-wrong-chain
error and return no block, inside it `Finalize` continues with the
state produced by `applySlashes` (propagating its error), and with an
empty list no slash is applied and the block is assembled. -/
theorem Finalize_slash_gating (ext : Externals) (chain : ChainReader) (header : Header)
    (st st1 st2 : StateDB) (payout : Nat) (doubleSigners : List Record) (viewID : Nat)
    (hPhase : finalizeCommitteePhase ext chain header st = .ok st1)
    (hRew : ext.accumulateRewardsAndCountSigs chain st1 header = .ok (st2, payout)) :
    (doubleSigners ≠ [] →
      ¬(header.shardID = BeaconChainShardID ∧ chain.config.isStaking header.epoch = true) →
      Finalize ext chain header st doubleSigners viewID
        = Except.error "slashes proposed in non-beacon chain or non-staking epoch") ∧
    (doubleSigners ≠ [] → header.shardID = BeaconChainShardID →
      chain.config.isStaking header.epoch = true →
      (∀ st3, applySlashes ext chain header st2 doubleSigners = .ok st3 →
        Finalize ext chain header st doubleSigners viewID
          = .ok (finalizeAssemble ext chain header st3 payout viewID)) ∧
      (∀ e, applySlashes ext chain header st2 doubleSigners = .error e →
        Finalize ext chain header st doubleSigners viewID = .error e)) ∧
    (doubleSigners = [] →
      Finalize ext chain header st doubleSigners viewID
        = .ok (finalizeAssemble ext chain header st2 payout viewID)) := by
  refine ⟨?_, ?_, ?_⟩
  · intro hne hnot
    have hpos : 0 < doubleSigners.length := List.length_pos.mpr hne
    have hcond : (decide (header.shardID = BeaconChainShardID)
        && chain.config.isStaking header.epoch && decide (0 < doubleSigners.length)) = false := by
      by_cases hb : header.shardID = BeaconChainShardID
      · have hst : chain.config.isStaking header.epoch = false := by
          cases hst : chain.config.isStaking header.epoch
          · rfl
          · exact absurd ⟨hb, hst⟩ hnot
        simp [hb, hst]
      · simp [hb]
    simp only [Finalize, hPhase, hRew]
    rw [hcond]
    simp [hpos]
  · intro hne hb hst
    have hpos : 0 < doubleSigners.length := List.length_pos.mpr hne
    constructor
    · intro st3 happly
      simp [Finalize, hPhase, hRew, hb, hst, hpos, happly]
    · intro e happly
      simp [Finalize, hPhase, hRew, hb, hst, hpos, happly]
  · intro hnil
    subst hnil
    simp [Finalize, hPhase, hRew]

/-- Witness for C7: double signers supplied on a non-beacon shard make
`Finalize` fail with the slashes-in-wrong-chain error. -/
theorem Finalize_slash_gating_witness :
    Finalize extTrace chainBeacon headerShard1 stEmpty [recSh1H10] 4
      = Except.error "slashes proposed in non-beacon chain or non-staking epoch" :=
  (Finalize_slash_gating extTrace chainBeacon headerShard1 stEmpty stEmpty stEmpty 0
      [recSh1H10] 4 rfl rfl).1 (by decide) (by decide)

/-! ## C8: the LastEpochInCommittee update -/

/-- After storing a wrapper under an address that is present, looking
the address up yields the stored wrapper. -/
theorem lookupWrapper_updateWrapper_self (l : List (Nat × ValidatorWrapper)) (a : Nat)
    (w w0 : ValidatorWrapper) (hfound : lookupWrapper l a = some w0) :
    lookupWrapper (updateWrapper l a w) a = some w := by
  induction l with
  | nil => simp [lookupWrapper] at hfound
  | cons p rest ih =>
    by_cases hpa : p.fst = a
    · simp [updateWrapper, lookupWrapper, hpa]
    · simp only [lookupWrapper, hpa, if_false] at hfound
      simp [updateWrapper, lookupWrapper, hpa]
      exact ih hfound

/-- Storing a wrapper under one address leaves lookups of any other
address unchanged. -/
theorem lookupWrapper_updateWrapper_other (l : List (Nat × ValidatorWrapper)) (a b : Nat)
    (w : ValidatorWrapper) (hne : a ≠ b) :
    lookupWrapper (updateWrapper l b w) a = lookupWrapper l a := by
  induction l with
  | nil => simp [updateWrapper, lookupWrapper]
  | cons p rest ih =>
    have hba : ¬b = a := fun hh => hne hh.symm
    by_cases hpb : p.fst = b
    · have hpa : ¬p.fst = a := by
        rw [hpb]
        exact hba
      simp [updateWrapper, lookupWrapper, hpb, hpa, hba, ih]
    · by_cases hpa : p.fst = a
      · simp [updateWrapper, lookupWrapper, hpb, hpa, hne, hba]
      · simp [updateWrapper, lookupWrapper, hpb, hpa, ih]

/-- The loop of `setLastEpochInCommittee` preserves the property that a
given address holds a wrapper whose `LastEpochInCommittee` is the new
epoch: every step either touches another address or re-stamps this one. -/
theorem setLastAux_preserves (ep : Option Nat) (addrs : List Nat) :
    ∀ (st st2 : StateDB) (a : Nat),
      setLastAux ep addrs st = .ok st2 →
      (∃ w, lookupWrapper st.wrappers a = some w ∧ w.lastEpochInCommittee = ep) →
      ∃ w, lookupWrapper st2.wrappers a = some w ∧ w.lastEpochInCommittee = ep := by
  induction addrs with
  | nil =>
    intro st st2 a hrun hprop
    simp [setLastAux] at hrun
    rw [← hrun]
    exact hprop
  | cons b rest ih =>
    intro st st2 a hrun hprop
    cases hlk : lookupWrapper st.wrappers b with
    | none => simp [setLastAux, hlk] at hrun
    | some w0 =>
      have hrun2 : setLastAux ep rest
          (setWrapper st b { w0 with lastEpochInCommittee := ep }) = .ok st2 := by
        simpa [setLastAux, hlk] using hrun
      apply ih _ _ a hrun2
      by_cases hab : a = b
      · subst hab
        refine ⟨{ w0 with lastEpochInCommittee := ep }, ?_, rfl⟩
        simp only [setWrapper]
        exact lookupWrapper_updateWrapper_self st.wrappers a _ w0 hlk
      · obtain ⟨w, hw, hwep⟩ := hprop
        refine ⟨w, ?_, hwep⟩
        simp only [setWrapper]
        rw [lookupWrapper_updateWrapper_other st.wrappers a b _ hab]
        exact hw

/-- After the loop of `setLastEpochInCommittee` succeeds, every address
it visited holds a wrapper stamped with the new epoch. -/
theorem setLastAux_sets (ep : Option Nat) (addrs : List Nat) :
    ∀ (st st2 : StateDB), setLastAux ep addrs st = .ok st2 →
      ∀ a ∈ addrs,
        ∃ w, lookupWrapper st2.wrappers a = some w ∧ w.lastEpochInCommittee = ep := by
  induction addrs with
  | nil =>
    intro st st2 _ a ha
    simp at ha
  | cons b rest ih =>
    intro st st2 hrun a ha
    cases hlk : lookupWrapper st.wrappers b with
    | none => simp [setLastAux, hlk] at hrun
    | some w0 =>
      have hrun2 : setLastAux ep rest
          (setWrapper st b { w0 with lastEpochInCommittee := ep }) = .ok st2 := by
        simpa [setLastAux, hlk] using hrun
      rcases List.mem_cons.mp ha with hab | hmem
      · subst hab
        apply setLastAux_preserves ep rest _ _ a hrun2
        refine ⟨{ w0 with lastEpochInCommittee := ep }, ?_, rfl⟩
        simp only [setWrapper]
        exact lookupWrapper_updateWrapper_self st.wrappers a _ w0 hlk
      · exact ih _ _ hrun2 a hmem

/-- C8: on a committee-selection block, a successful Phase 1 of
`Finalize` decomposes as the undelegation payout applied to the
original state (hence reading the old `LastEpochInCommittee` values),
followed by `setLastEpochInCommittee`, followed by the EPoS
recomputation — and after the `setLastEpochInCommittee` step the
`LastEpochInCommittee` of every staked validator listed in the
header's new shard state equals that shard state's epoch. -/
theorem finalize_lastEpochInCommittee_update (ext : Externals) (chain : ChainReader)
    (header : Header) (st stFinal : StateDB)
    (hSel : IsCommitteeSelectionBlock chain header = true)
    (hPhase : finalizeCommitteePhase ext chain header st = .ok stFinal) :
    ∃ st1 st2 newSS curSS,
      payoutUndelegations ext chain header st = .ok st1 ∧
      setLastEpochInCommittee header st1 = .ok st2 ∧
      header.shardStateDecoded = some newSS ∧
      (∀ a ∈ stakedValidatorAddrs newSS,
        ∃ w, lookupWrapper st2.wrappers a = some w ∧ w.lastEpochInCommittee = newSS.epoch) ∧
      chain.readShardStateFn chain.currentBlockEpoch = .ok curSS ∧
      eposLoop ext chain (stakedValidatorAddrs curSS) st2 = .ok stFinal := by
  cases hp : payoutUndelegations ext chain header st with
  | error e => simp [finalizeCommitteePhase, hSel, hp] at hPhase
  | ok st1 =>
    cases hsl : setLastEpochInCommittee header st1 with
    | error e => simp [finalizeCommitteePhase, hSel, hp, hsl] at hPhase
    | ok st2 =>
      cases hrs : chain.readShardStateFn chain.currentBlockEpoch with
      | error e => simp [finalizeCommitteePhase, hSel, hp, hsl, hrs] at hPhase
      | ok curSS =>
        have hepos : eposLoop ext chain (stakedValidatorAddrs curSS) st2 = .ok stFinal := by
          simpa [finalizeCommitteePhase, hSel, hp, hsl, hrs] using hPhase
        cases hdec : header.shardStateDecoded with
        | none => simp [setLastEpochInCommittee, hdec] at hsl
        | some newSS =>
          have hsl2 : setLastAux newSS.epoch (stakedValidatorAddrs newSS) st1 = .ok st2 := by
            simpa [setLastEpochInCommittee, hdec] using hsl
          exact ⟨st1, st2, newSS, curSS, rfl, hsl, rfl,
            setLastAux_sets newSS.epoch _ st1 st2 hsl2, rfl, hepos⟩

/-- The wrapper of validator 1 before the committee-selection block. -/
def wrapperOld : ValidatorWrapper := ⟨some 3, []⟩

/-- A state holding only validator 1. -/
def stOneVal : StateDB := ⟨[(1, wrapperOld)], []⟩

/-- The new shard state (epoch 9) carried by the header, listing
validator 1 as staked. -/
def ssNew : ShardState := ⟨some 9, [⟨0, [⟨1, 5, some 10⟩]⟩]⟩

/-- The current (outgoing) shard state with no staked validators. -/
def ssNoStaked : ShardState := ⟨some 8, [⟨0, [⟨1, 5, none⟩]⟩]⟩

/-- A committee-selection header on the beacon shard carrying `ssNew`. -/
def headerCommitteeSel : Header := ⟨100, 99, 12, 5, 0, 3, 0, [1], some ssNew, 7, [1], true⟩

/-- The beacon chain for the C8 witness. -/
def chainSel : ChainReader :=
  ⟨0, cfgAllOn, 2, 5, fun _ _ => none, fun _ => .ok ssNoStaked, .ok [1]⟩

/-- The state after Phase 1 in the C8 witness: validator 1 stamped with
epoch 9. -/
def stFinalSel : StateDB := ⟨[(1, ⟨some 9, []⟩)], []⟩

/-- Witness for C8 at a concrete committee-selection block. -/
theorem finalize_lastEpochInCommittee_update_witness :
    IsCommitteeSelectionBlock chainSel headerCommitteeSel = true ∧
    (∃ st1 st2 newSS curSS,
      payoutUndelegations extTrace chainSel headerCommitteeSel stOneVal = .ok st1 ∧
      setLastEpochInCommittee headerCommitteeSel st1 = .ok st2 ∧
      headerCommitteeSel.shardStateDecoded = some newSS ∧
      (∀ a ∈ stakedValidatorAddrs newSS,
        ∃ w, lookupWrapper st2.wrappers a = some w ∧ w.lastEpochInCommittee = newSS.epoch) ∧
      chainSel.readShardStateFn chainSel.currentBlockEpoch = .ok curSS ∧
      eposLoop extTrace chainSel (stakedValidatorAddrs curSS) st2 = .ok stFinalSel) :=
  ⟨by decide,
    finalize_lastEpochInCommittee_update extTrace chainSel headerCommitteeSel stOneVal
      stFinalSel (by decide) (by decide)⟩

end Harmony
